import Mathlib

/-!
Verification of the `display-interface` repository: a shallow embedding of
the data-format transcoding and chunked-transfer layer (SPI, I2C and
parallel-GPIO framing adapters) together with proofs of the specified
properties.

Conventions of the embedding:
* Machine integers (`u8`, `u16`) are modelled as `Nat`, with explicit
  `< 256` / `< 65536` bounds where a claim depends on them.
* Rust iterators (`&mut dyn Iterator<Item = u8>` etc.) are modelled as the
  finite `List` of items they yield.
* Fallible bus/pin operations are driven by explicit environments of
  booleans ("does this operation succeed"); every *attempted* physical
  operation is recorded in an event trace, and a failing operation makes
  the modelled function return the corresponding `DisplayError`, exactly
  mirroring the `?`-propagation of the source.
* A Rust expression that panics (out-of-bounds slice indexing) is modelled
  by `Option`: `none` is a panic.
-/

namespace DisplayInterface

/-- `DisplayError` from `src/src/lib.rs`. -/
inductive DisplayError where
  | InvalidFormatError
  | BusWriteError
  | BusReadError
  | DCError
  | CSError
  | DataFormatNotImplemented
deriving DecidableEq, Repr

/-- `DataFormat<'a>` from `src/src/lib.rs`.  Slices and iterators are both
modelled as the finite list of values they contain/yield. -/
inductive DataFormat where
  | U8 (slice : List Nat)
  | U16 (slice : List Nat)
  | U16BE (slice : List Nat)
  | U16LE (slice : List Nat)
  | U8Iter (iter : List Nat)
  | U16BEIter (iter : List Nat)
  | U16LEIter (iter : List Nat)
deriving DecidableEq, Repr

/-- Is the format the plain byte-slice variant? -/
def DataFormat.isU8 : DataFormat → Bool
  | .U8 _ => true
  | _ => false

/-- The two bytes of a `u16` in big-endian order.  In the source this arises
as `v.to_be` followed by reinterpreting the value's memory as bytes
(`as_byte_slice`): on a little-endian host `to_be` byte-swaps and the
little-endian layout of the swapped value is `[hi, lo]`; on a big-endian
host `to_be` is the identity and the layout is `[hi, lo]` directly.  Either
way the emitted bytes are the big-endian bytes of `v`. -/
def beBytes (v : Nat) : List Nat := [v / 256 % 256, v % 256]

/-- The two bytes of a `u16` in little-endian order (`v.to_le` composed with
the memory reinterpretation, host-independent by the same argument as
`beBytes`). -/
def leBytes (v : Nat) : List Nat := [v % 256, v / 256 % 256]

/-- Memory bytes of a `u16` in the host's native order
(`DataFormat::U16` performs no conversion, so its byte stream depends on
the host's endianness; `le` says whether the host is little-endian). -/
def nativeBytes (le : Bool) (v : Nat) : List Nat :=
  if le then leBytes v else beBytes v

/-- Pairwise big-endian decoding of a byte stream back into 16-bit values. -/
def decodeBE : List Nat → List Nat
  | hi :: lo :: rest => (hi * 256 + lo) :: decodeBE rest
  | _ => []

/-- Pairwise little-endian decoding of a byte stream back into 16-bit
values. -/
def decodeLE : List Nat → List Nat
  | lo :: hi :: rest => (hi * 256 + lo) :: decodeLE rest
  | _ => []

/-- The chunked iterator-to-buffer transcoder used by all the SPI iterator
arms of `send_u8` (`src/spi/src/lib.rs`, `src/spi_async/src/lib.rs`):
items are accumulated into a fixed buffer of capacity `cap`; when the
buffer is full it is flushed whole (`spi.write(&buf)` with the write index
reset), and after the iterator is exhausted the filled prefix `buf[..i]`
is flushed if nonempty.  `acc` is the filled prefix `buf[..i]` of the
buffer; bytes of the buffer beyond the fill index are never emitted by the
source, so the filled prefix is the whole relevant state. -/
def chunkedWrites (cap : Nat) (acc : List Nat) : List Nat → List (List Nat)
  | [] => if acc.isEmpty then [] else [acc]
  | v :: rest =>
    if (acc ++ [v]).length = cap then (acc ++ [v]) :: chunkedWrites cap [] rest
    else chunkedWrites cap (acc ++ [v]) rest

theorem chunkedWrites_flatten (cap : Nat) :
    ∀ (vs acc : List Nat), (chunkedWrites cap acc vs).flatten = acc ++ vs := by
  intro vs
  induction vs with
  | nil =>
    intro acc
    by_cases h : acc = []
    · simp [chunkedWrites, h]
    · simp [chunkedWrites, h]
  | cons v rest ih =>
    intro acc
    by_cases h : acc.length + 1 = cap
    · simp [chunkedWrites, h, ih]
    · simp [chunkedWrites, h, ih]

theorem chunkedWrites_length (cap : Nat) (hcap : 0 < cap) :
    ∀ (vs acc : List Nat), acc.length < cap →
      (chunkedWrites cap acc vs).length = (acc.length + vs.length + (cap - 1)) / cap := by
  intro vs
  induction vs with
  | nil =>
    intro acc hlt
    cases acc with
    | nil =>
      simp only [chunkedWrites, List.isEmpty_nil, if_pos, List.length_nil]
      symm
      apply Nat.div_eq_of_lt
      omega
    | cons a t =>
      simp only [List.length_cons] at hlt
      simp [chunkedWrites]
      symm
      apply Nat.div_eq_of_lt_le <;> omega
  | cons v rest ih =>
    intro acc hlt
    by_cases h : acc.length + 1 = cap
    · have ihr := ih [] (by simpa using hcap)
      simp only [chunkedWrites, List.length_append, List.length_cons, List.length_nil, h,
        if_pos, ihr, List.length_nil]
      have heq : acc.length + (rest.length + 1) + (cap - 1) =
          (0 + rest.length + (cap - 1)) + cap := by omega
      rw [heq, Nat.add_div_right _ hcap]
    · have hlt2 : (acc ++ [v]).length < cap := by
        simp only [List.length_append, List.length_cons, List.length_nil]
        omega
      have ihr := ih (acc ++ [v]) hlt2
      simp only [List.length_append, List.length_cons, List.length_nil] at ihr
      simp only [chunkedWrites]
      rw [if_neg (by simp only [List.length_append, List.length_cons, List.length_nil]; omega)]
      rw [ihr]
      simp only [List.length_cons]
      congr 1
      omega

/-- A physical operation performed by the SPI adapters: chip-select and
data/command pin levels, and one `spi.write` call with its byte payload. -/
inductive SpiEvent where
  | csLow
  | csHigh
  | dcLow
  | dcHigh
  | busWrite (bytes : List Nat)
deriving DecidableEq, Repr

/-- Failure environment for the SPI adapters: whether each pin operation
succeeds, and whether the `n`-th `spi.write` call of the invocation
succeeds. -/
structure SpiEnv where
  csLowOk : Bool
  csHighOk : Bool
  dcOk : Bool
  busOk : Nat → Bool

/-- The all-success environment. -/
def spiEnvOk : SpiEnv := ⟨true, true, true, fun _ => true⟩

/-- The sequence of `spi.write` payloads produced by `send_u8`
(`src/spi/src/lib.rs` lines 14-112; the async copies in
`src/spi_async/src/lib.rs` use the same buffer sizes) for each
`DataFormat` arm:
* `U8`: one write of the slice itself;
* `U16`: one write of the slice reinterpreted in host byte order
  (`le` = host is little-endian);
* `U16LE`/`U16BE`: the slice is converted in place and written once;
* `U8Iter`: chunked through a 32-byte buffer;
* `U16LEIter`: chunked through a buffer of 32 `u16`s, each emitted as its
  2 little-endian bytes;
* `U16BEIter`: chunked through a buffer of 64 `u16`s, each emitted as its
  2 big-endian bytes.
All current variants are handled, so the `_ => DataFormatNotImplemented`
arm of the source is unreachable here. -/
def spiPlan (le : Bool) : DataFormat → List (List Nat)
  | .U8 slice => [slice]
  | .U16 slice => [slice.flatMap (nativeBytes le)]
  | .U16LE slice => [slice.flatMap leBytes]
  | .U16BE slice => [slice.flatMap beBytes]
  | .U8Iter bytes => chunkedWrites 32 [] bytes
  | .U16LEIter vs => (chunkedWrites 32 [] vs).map (fun c => c.flatMap leBytes)
  | .U16BEIter vs => (chunkedWrites 64 [] vs).map (fun c => c.flatMap beBytes)

/-- Perform the planned `spi.write` calls in order, stopping at the first
failure (the `?` in the source); each attempted write is recorded. -/
def runWrites (busOk : Nat → Bool) (n : Nat) :
    List (List Nat) → Except DisplayError Unit × List SpiEvent
  | [] => (.ok (), [])
  | w :: rest =>
    if busOk n then
      ((runWrites busOk (n + 1) rest).1, .busWrite w :: (runWrites busOk (n + 1) rest).2)
    else (.error .BusWriteError, [.busWrite w])

/-- `SPIInterfaceNoCS::send_commands` / `BorrowedSPIInterfaceNoCS::send_commands`
(`src/spi/src/lib.rs` lines 250-256): drive D/C low, then `send_u8`. -/
def spiNoCsSendCommands (env : SpiEnv) (le : Bool) (fmt : DataFormat) :
    Except DisplayError Unit × List SpiEvent :=
  if env.dcOk then
    ((runWrites env.busOk 0 (spiPlan le fmt)).1,
      .dcLow :: (runWrites env.busOk 0 (spiPlan le fmt)).2)
  else (.error .DCError, [.dcLow])

/-- `SPIInterfaceNoCS::send_data` (`src/spi/src/lib.rs` lines 258-264):
drive D/C high, then `send_u8`. -/
def spiNoCsSendData (env : SpiEnv) (le : Bool) (fmt : DataFormat) :
    Except DisplayError Unit × List SpiEvent :=
  if env.dcOk then
    ((runWrites env.busOk 0 (spiPlan le fmt)).1,
      .dcHigh :: (runWrites env.busOk 0 (spiPlan le fmt)).2)
  else (.error .DCError, [.dcHigh])

/-- `BorrowedSPIInterface::with_cs` (`src/spi/src/lib.rs` lines 137-150):
assert CS low (propagating `CSError` on failure), run the inner call, then
`cs.set_high().ok()` — the deassert is attempted unconditionally and its
failure is discarded; the inner result is returned. -/
def withCs (env : SpiEnv) (inner : Except DisplayError Unit × List SpiEvent) :
    Except DisplayError Unit × List SpiEvent :=
  if env.csLowOk then (inner.1, .csLow :: inner.2 ++ [.csHigh])
  else (.error .CSError, [.csLow])

/-- `BorrowedSPIInterface::send_commands` (`src/spi/src/lib.rs` line 161-163). -/
def spiCsSendCommands (env : SpiEnv) (le : Bool) (fmt : DataFormat) :
    Except DisplayError Unit × List SpiEvent :=
  withCs env (spiNoCsSendCommands env le fmt)

/-- `BorrowedSPIInterface::send_data` (`src/spi/src/lib.rs` line 165-167). -/
def spiCsSendData (env : SpiEnv) (le : Bool) (fmt : DataFormat) :
    Except DisplayError Unit × List SpiEvent :=
  withCs env (spiNoCsSendData env le fmt)

/-- The asynchronous `SPIInterface::send_commands` of the `spi_async` crate
(`src/spi_async/src/lib.rs` lines 176-181): `self.cs_low()?;
self.spi_no_cs.send_commands(cmds).await?; self.cs_high()?; Ok(())` — in
contrast to the sync `with_cs`, a deassert failure after a successful
payload is propagated as `CSError`, and after a failed payload the
deassert is never attempted. -/
def spiAsyncCsSendCommands (env : SpiEnv) (le : Bool) (fmt : DataFormat) :
    Except DisplayError Unit × List SpiEvent :=
  if env.csLowOk then
    match spiNoCsSendCommands env le fmt with
    | (.ok (), evs) =>
      if env.csHighOk then (.ok (), .csLow :: evs ++ [.csHigh])
      else (.error .CSError, .csLow :: evs ++ [.csHigh])
    | (.error e, evs) => (.error e, .csLow :: evs)
  else (.error .CSError, [.csLow])

/-- All payload bytes carried by the `busWrite` events of a trace, in
order. -/
def busBytes : List SpiEvent → List Nat
  | [] => []
  | .busWrite w :: rest => w ++ busBytes rest
  | _ :: rest => busBytes rest

/-- Number of `spi.write` calls in a trace. -/
def countBusWrites : List SpiEvent → Nat
  | [] => 0
  | .busWrite _ :: rest => countBusWrites rest + 1
  | _ :: rest => countBusWrites rest

theorem runWrites_all_ok (busOk : Nat → Bool) (hok : ∀ k, busOk k = true) :
    ∀ (ws : List (List Nat)) (n : Nat),
      runWrites busOk n ws = (.ok (), ws.map .busWrite) := by
  intro ws
  induction ws with
  | nil => intro n; rfl
  | cons w rest ih =>
    intro n
    simp [runWrites, hok n, ih (n + 1)]

theorem runWrites_ok_events (busOk : Nat → Bool) :
    ∀ (ws : List (List Nat)) (n : Nat), (runWrites busOk n ws).1 = .ok () →
      (runWrites busOk n ws).2 = ws.map .busWrite := by
  intro ws
  induction ws with
  | nil => intro n _; rfl
  | cons w rest ih =>
    intro n h
    by_cases hb : busOk n = true
    · simp only [runWrites, hb, if_pos] at h ⊢
      simp [ih (n + 1) h]
    · simp only [runWrites, hb, if_neg, Bool.not_eq_true] at h
      exact absurd h (by simp)

theorem busBytes_map_busWrite (ws : List (List Nat)) :
    busBytes (ws.map .busWrite) = ws.flatten := by
  induction ws with
  | nil => rfl
  | cons w rest ih => simp [busBytes, ih]

theorem flatten_map_flatMap (f : Nat → List Nat) (ls : List (List Nat)) :
    (ls.map (fun c => c.flatMap f)).flatten = ls.flatten.flatMap f := by
  induction ls with
  | nil => rfl
  | cons a rest ih => simp [ih]

/-- Failure environment for the I2C adapter: whether the `n`-th
`i2c.write` call of the invocation succeeds. -/
structure I2cEnv where
  ok : Nat → Bool

/-- The all-success I2C environment. -/
def i2cEnvOk : I2cEnv := ⟨fun _ => true⟩

/-- `I2cInterface` fields (`src/i2c/src/lib.rs` lines 12-16): the device
address and the configured data-mode byte. -/
structure I2cInterface where
  addr : Nat
  data_byte : Nat

/-- One `i2c.write(addr, bytes)` call: the address and the bytes written. -/
abbrev I2cWrite := Nat × List Nat

/-- Rust `dst[start..start+src.len()].copy_from_slice(src)` on a list, under
the in-bounds precondition checked by the caller. -/
def setSlice (l : List Nat) (start : Nat) (src : List Nat) : List Nat :=
  l.take start ++ src ++ l.drop (start + src.length)

/-- Rust `slice.chunks(16)`: the list split into consecutive chunks of 16,
the last chunk possibly shorter. -/
def chunks16 : List Nat → List (List Nat)
  | [] => []
  | b :: rest => (b :: rest.take 15) :: chunks16 (rest.drop 15)
termination_by l => l.length
decreasing_by
  simp only [List.length_drop, List.length_cons]
  omega

theorem chunks16_length : ∀ (n : Nat) (l : List Nat), l.length ≤ n →
    (chunks16 l).length = (l.length + 15) / 16 := by
  intro n
  induction n with
  | zero =>
    intro l hl
    have : l = [] := List.eq_nil_of_length_eq_zero (by omega)
    subst this
    rw [chunks16]
    decide
  | succ n ih =>
    intro l hl
    cases l with
    | nil =>
      rw [chunks16]
      decide
    | cons b rest =>
      rw [chunks16]
      simp only [List.length_cons]
      have hdrop : (rest.drop 15).length = rest.length - 15 := by simp
      have ihr := ih (rest.drop 15) (by simp only [List.length_cons] at hl; omega)
      rw [ihr, hdrop]
      rcases le_or_lt 15 rest.length with hge | hlt
      · have h1 : rest.length - 15 + 15 = rest.length := by omega
        have h2 : rest.length + 1 + 15 = rest.length + 16 := by omega
        rw [h1, h2, Nat.add_div_right _ (by omega)]
      · have h1 : rest.length - 15 = 0 := by omega
        have h2 : (0 + 15) / 16 = 0 := by decide
        have h3 : (rest.length + 1 + 15) / 16 = 1 := by
          apply Nat.div_eq_of_lt_le <;> omega
        rw [h1, h2, h3]

theorem chunks16_flatten : ∀ (n : Nat) (l : List Nat), l.length ≤ n →
    (chunks16 l).flatten = l := by
  intro n
  induction n with
  | zero =>
    intro l hl
    have : l = [] := List.eq_nil_of_length_eq_zero (by omega)
    subst this
    rw [chunks16]
    decide
  | succ n ih =>
    intro l hl
    cases l with
    | nil =>
      rw [chunks16]
      decide
    | cons b rest =>
      rw [chunks16]
      simp only [List.flatten_cons]
      have ihr := ih (rest.drop 15) (by simp only [List.length_cons] at hl; simp; omega)
      rw [ihr]
      simp

theorem chunks16_short (c : List Nat) : ∀ (n : Nat) (l : List Nat), l.length ≤ n →
    c ∈ chunks16 l → c.length ≤ 16 := by
  intro n
  induction n with
  | zero =>
    intro l hl hc
    have : l = [] := List.eq_nil_of_length_eq_zero (by omega)
    subst this
    simp [chunks16] at hc
  | succ n ih =>
    intro l hl hc
    cases l with
    | nil => simp [chunks16] at hc
    | cons b rest =>
      rw [chunks16] at hc
      rcases List.mem_cons.mp hc with h | h
      · subst h
        simp only [List.length_cons, List.length_take]
        omega
      · exact ih (rest.drop 15) (by simp only [List.length_cons] at hl; simp; omega) h

/-- `I2cInterface::send_commands` (`src/i2c/src/lib.rs` lines 50-64): for a
`U8` slice, an 8-byte zeroed buffer receives the commands at positions
`1..=len` and `writebuf[..=len]` is written in one `i2c.write`; the
leading byte stays `0`, the command-mode byte.  A slice of 8 or more bytes
makes `writebuf[1..=len]` index out of bounds — a panic, modelled as
`none`.  Every other format is rejected with `DataFormatNotImplemented`
before any bus operation. -/
def I2cInterface.send_commands (env : I2cEnv) (st : I2cInterface) (cmds : DataFormat) :
    Option (Except DisplayError Unit × List I2cWrite) :=
  match cmds with
  | .U8 slice =>
    if slice.length < 8 then
      some (if env.ok 0 then
        (.ok (), [(st.addr, (setSlice (List.replicate 8 0) 1 slice).take (slice.length + 1))])
      else
        (.error .BusWriteError,
          [(st.addr, (setSlice (List.replicate 8 0) 1 slice).take (slice.length + 1))]))
    else none
  | _ => some (.error .DataFormatNotImplemented, [])

/-- The chunk loop of the `U8` arm of `I2cInterface::send_data`
(`src/i2c/src/lib.rs` lines 79-89): for each 16-byte chunk, copy it into
`writebuf[1..=chunk_len]` and write `writebuf[0..=chunk_len]`; the buffer
(`writebuf`, 17 bytes, index 0 holding the data-mode byte) is reused
across chunks. -/
def i2cDataGo (env : I2cEnv) (addr : Nat) (n : Nat) (writebuf : List Nat) :
    List (List Nat) → Except DisplayError Unit × List I2cWrite
  | [] => (.ok (), [])
  | chunk :: rest =>
    if env.ok n then
      ((i2cDataGo env addr (n + 1) (setSlice writebuf 1 chunk) rest).1,
        (addr, (setSlice writebuf 1 chunk).take (chunk.length + 1)) ::
          (i2cDataGo env addr (n + 1) (setSlice writebuf 1 chunk) rest).2)
    else
      (.error .BusWriteError,
        [(addr, (setSlice writebuf 1 chunk).take (chunk.length + 1))])

/-- Rust `l.set i b` under the panic discipline of `writebuf[i] = b`:
`none` when `i` is out of bounds. -/
def setAt (l : List Nat) (i : Nat) (b : Nat) : Option (List Nat) :=
  if i < l.length then some (l.set i b) else none

/-- Rust `&l[0..=j]`: `none` (panic) when `j` is out of bounds, otherwise
the first `j + 1` elements. -/
def sliceIncl (l : List Nat) (j : Nat) : Option (List Nat) :=
  if j < l.length then some (l.take (j + 1)) else none

/-- The byte loop of the `U8Iter` arm of `I2cInterface::send_data`
(`src/i2c/src/lib.rs` lines 93-122 and, identically, the async copy
`src/i2c/src/asynch.rs` lines 52-81): `writebuf` is a 17-byte buffer with
the data-mode byte at index 0, `i` is the next free index (starting at 1)
and `len = writebuf.len() = 17`.  Each byte is stored at `writebuf[i]`;
when `i` reaches `len` the source writes `&writebuf[0..=len]` — an
out-of-bounds slice of the 17-byte buffer (a panic, `none` here) — and
after the loop, when `i > 1`, it writes `&writebuf[0..=i]`, which is
`i + 1` bytes: the mode byte, the `i - 1` buffered bytes, and one byte
beyond the fill index. -/
def i2cIterGo (env : I2cEnv) (addr : Nat) (n : Nat) (writebuf : List Nat) (i : Nat) :
    List Nat → Option (Except DisplayError Unit × List I2cWrite)
  | [] =>
    if 1 < i then
      match sliceIncl writebuf i with
      | none => none
      | some w =>
        if env.ok n then some (.ok (), [(addr, w)])
        else some (.error .BusWriteError, [(addr, w)])
    else some (.ok (), [])
  | b :: rest =>
    match setAt writebuf i b with
    | none => none
    | some wb =>
      if i + 1 = 17 then
        match sliceIncl wb 17 with
        | none => none
        | some w =>
          if env.ok n then
            match i2cIterGo env addr (n + 1) wb 1 rest with
            | none => none
            | some (r, ws) => some (r, (addr, w) :: ws)
          else some (.error .BusWriteError, [(addr, w)])
      else i2cIterGo env addr n wb (i + 1) rest

/-- `I2cInterface::send_data` (`src/i2c/src/lib.rs` lines 66-125): empty
`U8` slices return `Ok` before any bus operation; non-empty `U8` slices go
through the 16-byte chunk loop; `U8Iter` goes through the byte loop; every
other format is rejected.  In both data paths `writebuf` starts as 17
zeroes with `writebuf[0] = self.data_byte`. -/
def I2cInterface.send_data (env : I2cEnv) (st : I2cInterface) (buf : DataFormat) :
    Option (Except DisplayError Unit × List I2cWrite) :=
  match buf with
  | .U8 slice =>
    if slice.isEmpty then some (.ok (), [])
    else some (i2cDataGo env st.addr 0 ((List.replicate 17 0).set 0 st.data_byte)
      (chunks16 slice))
  | .U8Iter bytes =>
    i2cIterGo env st.addr 0 ((List.replicate 17 0).set 0 st.data_byte) 1 bytes
  | _ => some (.error .DataFormatNotImplemented, [])

/-- A physical operation performed by the parallel-GPIO adapter: the D/C
pin, the write-enable (WR) strobe pin, and one individual data-line write
(`pin idx high`: data line `idx` driven high or low). -/
inductive ParEvent where
  | dcLow
  | dcHigh
  | wrLow
  | wrHigh
  | pin (idx : Nat) (high : Bool)
deriving DecidableEq, Repr

/-- `Generic8BitBus` state (`src/parallel-gpio/src/lib.rs` lines 22-25):
the cached last driven value (`last: u8`). -/
structure Bus8 where
  last : Nat
deriving DecidableEq, Repr

/-- The unrolled per-pin loop of `Generic8BitBus::set_value`
(`src/parallel-gpio/src/lib.rs` lines 62-72), one iteration per pin index
in `xs`: when bit `x` of `changed` is set, drive pin `x` high or low
according to bit `x` of `value` (propagating `BusWriteError` when the pin
write fails, `pinOk x = false`). -/
def set_value_pins (pinOk : Nat → Bool) (value changed : Nat) :
    List Nat → Except DisplayError Unit × List ParEvent
  | [] => (.ok (), [])
  | x :: xs =>
    if changed.testBit x then
      if pinOk x then
        ((set_value_pins pinOk value changed xs).1,
          .pin x (value.testBit x) :: (set_value_pins pinOk value changed xs).2)
      else (.error .BusWriteError, [.pin x (value.testBit x)])
    else set_value_pins pinOk value changed xs

/-- `Generic8BitBus::set_value` (`src/parallel-gpio/src/lib.rs` lines
56-78): `changed = value ^ last`; when `changed != 0` drive exactly the
pins whose bit changed (pins 0-7 in order) and, on success, update the
cache; when `changed == 0` do nothing.  Returns the result, the new bus
state, and the attempted pin writes. -/
def Bus8.set_value (pinOk : Nat → Bool) (bus : Bus8) (value : Nat) :
    Except DisplayError Unit × Bus8 × List ParEvent :=
  if value ^^^ bus.last = 0 then (.ok (), bus, [])
  else
    match set_value_pins pinOk value (value ^^^ bus.last) (List.range 8) with
    | (.ok (), evs) => (.ok (), ⟨value⟩, evs)
    | (.error e, evs) => (.error e, bus, evs)

/-- `Generic8BitBus::new` (`src/parallel-gpio/src/lib.rs` lines 34-41):
the cache starts at `u8::MAX` and `set_value(0)` is called, so
construction itself drives every line low and leaves the cache at 0. -/
def Bus8.new (pinOk : Nat → Bool) : Except DisplayError Unit × Bus8 × List ParEvent :=
  Bus8.set_value pinOk ⟨255⟩ 0

/-- Failure environment for the parallel adapter: the D/C pin, the WR
strobe pin, and the individual data-line pins (`pinOk` by pin index). -/
structure ParEnv where
  dcOk : Bool
  wrOk : Bool
  pinOk : Nat → Bool

/-- The all-success parallel environment. -/
def parEnvOk : ParEnv := ⟨true, true, fun _ => true⟩

/-- One iteration of the byte loop of `PGPIO8BitInterface::send_data`
(`src/parallel-gpio/src/lib.rs` lines 209-213): `wr.set_low()?`, then
`set_value(*d)?`, then `wr.set_high()?`. -/
def pgpio_write_byte (env : ParEnv) (bus : Bus8) (b : Nat) :
    Except DisplayError Unit × Bus8 × List ParEvent :=
  if env.wrOk then
    match Bus8.set_value env.pinOk bus b with
    | (.ok (), bus1, evs) =>
      if env.wrOk then (.ok (), bus1, .wrLow :: evs ++ [.wrHigh])
      else (.error .BusWriteError, bus1, .wrLow :: evs ++ [.wrHigh])
    | (.error e, bus1, evs) => (.error e, bus1, .wrLow :: evs)
  else (.error .BusWriteError, bus, [.wrLow])

/-- The byte loop of `PGPIO8BitInterface::send_data`: one
low-value-high strobe cycle per byte, stopping at the first failure. -/
def pgpio_send_bytes (env : ParEnv) (bus : Bus8) :
    List Nat → Except DisplayError Unit × Bus8 × List ParEvent
  | [] => (.ok (), bus, [])
  | b :: rest =>
    match pgpio_write_byte env bus b with
    | (.ok (), bus1, evs) =>
      ((pgpio_send_bytes env bus1 rest).1, (pgpio_send_bytes env bus1 rest).2.1,
        evs ++ (pgpio_send_bytes env bus1 rest).2.2)
    | (.error e, bus1, evs) => (.error e, bus1, evs)

/-- `PGPIO8BitInterface::send_data` (`src/parallel-gpio/src/lib.rs` lines
205-278): drive D/C high once, then run the strobe cycle for every byte of
the payload; 16-bit formats are flattened to bytes first (`U16` via
`as_byte_slice` in host order, `U16LE`/`U16BE`/their iterators via
`to_le_bytes`/`to_be_bytes` per word). -/
def PGPIO8BitInterface.send_data (env : ParEnv) (le : Bool) (bus : Bus8)
    (buf : DataFormat) : Except DisplayError Unit × Bus8 × List ParEvent :=
  if env.dcOk then
    match buf with
    | .U8 slice =>
      ((pgpio_send_bytes env bus slice).1, (pgpio_send_bytes env bus slice).2.1,
        .dcHigh :: (pgpio_send_bytes env bus slice).2.2)
    | .U16 slice =>
      ((pgpio_send_bytes env bus (slice.flatMap (nativeBytes le))).1,
        (pgpio_send_bytes env bus (slice.flatMap (nativeBytes le))).2.1,
        .dcHigh :: (pgpio_send_bytes env bus (slice.flatMap (nativeBytes le))).2.2)
    | .U16LE slice =>
      ((pgpio_send_bytes env bus (slice.flatMap leBytes)).1,
        (pgpio_send_bytes env bus (slice.flatMap leBytes)).2.1,
        .dcHigh :: (pgpio_send_bytes env bus (slice.flatMap leBytes)).2.2)
    | .U16BE slice =>
      ((pgpio_send_bytes env bus (slice.flatMap beBytes)).1,
        (pgpio_send_bytes env bus (slice.flatMap beBytes)).2.1,
        .dcHigh :: (pgpio_send_bytes env bus (slice.flatMap beBytes)).2.2)
    | .U8Iter bytes =>
      ((pgpio_send_bytes env bus bytes).1, (pgpio_send_bytes env bus bytes).2.1,
        .dcHigh :: (pgpio_send_bytes env bus bytes).2.2)
    | .U16LEIter vs =>
      ((pgpio_send_bytes env bus (vs.flatMap leBytes)).1,
        (pgpio_send_bytes env bus (vs.flatMap leBytes)).2.1,
        .dcHigh :: (pgpio_send_bytes env bus (vs.flatMap leBytes)).2.2)
    | .U16BEIter vs =>
      ((pgpio_send_bytes env bus (vs.flatMap beBytes)).1,
        (pgpio_send_bytes env bus (vs.flatMap beBytes)).2.1,
        .dcHigh :: (pgpio_send_bytes env bus (vs.flatMap beBytes)).2.2)
  else (.error .DCError, bus, [.dcHigh])

/-- Number of individual data-line writes in a parallel trace. -/
def countPin : List ParEvent → Nat
  | [] => 0
  | .pin _ _ :: rest => countPin rest + 1
  | _ :: rest => countPin rest

/-- Number of WR rising edges (the edge the display samples) in a parallel
trace. -/
def countWrHigh : List ParEvent → Nat
  | [] => 0
  | .wrHigh :: rest => countWrHigh rest + 1
  | _ :: rest => countWrHigh rest

theorem countBusWrites_map_busWrite (ws : List (List Nat)) :
    countBusWrites (ws.map .busWrite) = ws.length := by
  induction ws with
  | nil => rfl
  | cons w rest ih => simp [countBusWrites, ih]

theorem decodeBE_flatMap : ∀ (vs : List Nat), (∀ v ∈ vs, v < 65536) →
    decodeBE (vs.flatMap beBytes) = vs := by
  intro vs
  induction vs with
  | nil => intro h; rfl
  | cons v rest ih =>
    intro h
    have hv : v < 65536 := h v (by simp)
    have hrest := ih (fun x hx => h x (by simp [hx]))
    simp only [List.flatMap_cons, beBytes, List.cons_append, List.nil_append]
    rw [decodeBE, hrest]
    congr 1
    omega

theorem decodeLE_flatMap : ∀ (vs : List Nat), (∀ v ∈ vs, v < 65536) →
    decodeLE (vs.flatMap leBytes) = vs := by
  intro vs
  induction vs with
  | nil => intro h; rfl
  | cons v rest ih =>
    intro h
    have hv : v < 65536 := h v (by simp)
    have hrest := ih (fun x hx => h x (by simp [hx]))
    simp only [List.flatMap_cons, leBytes, List.cons_append, List.nil_append]
    rw [decodeLE, hrest]
    congr 1
    omega

theorem busBytes_spiNoCsSendData_ok (le : Bool) (fmt : DataFormat) :
    busBytes (spiNoCsSendData spiEnvOk le fmt).2 = (spiPlan le fmt).flatten := by
  simp [spiNoCsSendData, spiEnvOk, runWrites_all_ok (fun _ => true) (fun _ => rfl), busBytes,
    busBytes_map_busWrite]

/-- **C1**: on the SPI `U8Iter` path (32-byte buffer) the claim holds: the
trace of `send_data` (error-free bus) is the D/C assertion followed by
exactly `ceil(L / 32)` bus writes (0 when `L = 0`, since
`(L + 31) / 32 = 0` then) whose payloads concatenate to the iterator's
byte sequence.  On the I2C `U8Iter` path, however, the claim fails: as
soon as 16 payload bytes have been buffered the source slices
`&writebuf[0..=len]` with `len = 17` on a 17-byte buffer, a panic
(`none`), shown here on a 16-byte payload where the claim demands a single
flush. -/
theorem spi_u8iter_chunking_exact_but_i2c_u8iter_flush_panics :
    (∀ bytes : List Nat,
      (spiNoCsSendData spiEnvOk true (.U8Iter bytes)).2 =
        .dcHigh :: (chunkedWrites 32 [] bytes).map .busWrite ∧
      countBusWrites (spiNoCsSendData spiEnvOk true (.U8Iter bytes)).2 =
        (bytes.length + 31) / 32 ∧
      busBytes (spiNoCsSendData spiEnvOk true (.U8Iter bytes)).2 = bytes) ∧
    I2cInterface.send_data i2cEnvOk ⟨60, 64⟩ (.U8Iter (List.replicate 16 85)) = none := by
  constructor
  · intro bytes
    have htrace : (spiNoCsSendData spiEnvOk true (.U8Iter bytes)).2 =
        .dcHigh :: (chunkedWrites 32 [] bytes).map .busWrite := by
      simp [spiNoCsSendData, spiEnvOk, spiPlan,
        runWrites_all_ok (fun _ => true) (fun _ => rfl)]
    refine ⟨htrace, ?_, ?_⟩
    · rw [htrace]
      have hlen := chunkedWrites_length 32 (by omega) bytes [] (by simp)
      simp [countBusWrites, countBusWrites_map_busWrite, hlen]
    · rw [htrace]
      have hflat := chunkedWrites_flatten 32 bytes []
      simp [busBytes, busBytes_map_busWrite, hflat]
  · rfl

/-- **C9**: sending `u16` values through the SPI adapter as `U16BEIter`
(64-item buffer) and decoding the emitted byte stream pairwise big-endian
reproduces the original sequence; likewise for `U16LEIter` (32-item
buffer) with little-endian decoding. -/
theorem spi_u16_iter_endianness_roundtrip (vs : List Nat)
    (h : ∀ v ∈ vs, v < 65536) :
    decodeBE (busBytes (spiNoCsSendData spiEnvOk true (.U16BEIter vs)).2) = vs ∧
    decodeLE (busBytes (spiNoCsSendData spiEnvOk true (.U16LEIter vs)).2) = vs := by
  constructor
  · rw [busBytes_spiNoCsSendData_ok]
    show decodeBE ((chunkedWrites 64 [] vs).map (fun c => c.flatMap beBytes)).flatten = vs
    rw [flatten_map_flatMap, chunkedWrites_flatten]
    simpa using decodeBE_flatMap vs h
  · rw [busBytes_spiNoCsSendData_ok]
    show decodeLE ((chunkedWrites 32 [] vs).map (fun c => c.flatMap leBytes)).flatten = vs
    rw [flatten_map_flatMap, chunkedWrites_flatten]
    simpa using decodeLE_flatMap vs h

/-- Witness for C9 at the concrete sequence `[0x1234, 0xABCD]`. -/
theorem spi_u16_iter_endianness_roundtrip_witness :
    decodeBE (busBytes (spiNoCsSendData spiEnvOk true
        (.U16BEIter [4660, 43981])).2) = [4660, 43981] ∧
    decodeLE (busBytes (spiNoCsSendData spiEnvOk true
        (.U16LEIter [4660, 43981])).2) = [4660, 43981] :=
  ⟨(spi_u16_iter_endianness_roundtrip [4660, 43981] (by decide)).1,
    (spi_u16_iter_endianness_roundtrip [4660, 43981] (by decide)).2⟩

/-- **C10**: the I2C `U8Iter` trailing flush writes `&writebuf[0..=i]`,
which is `i + 1` bytes — the mode byte, the `i - 1` buffered payload
bytes, and one stale byte beyond the fill index: for the one-byte payload
`[0xAB]` with data-mode byte `0x40` the single write is
`[0x40, 0xAB, 0x00]` instead of the exact `[0x40, 0xAB]`; together with
the `&writebuf[0..=17]` out-of-bounds full-buffer flush (see the `none`
evaluation for C1) the path is neither total nor exact. -/
theorem i2c_u8iter_partial_flush_has_extra_stale_byte :
    I2cInterface.send_data i2cEnvOk ⟨60, 64⟩ (.U8Iter [171]) =
      some (.ok (), [(60, [64, 171, 0])]) ∧
    ([64, 171, 0] : List Nat) ≠ [64, 171] := by
  exact ⟨rfl, by decide⟩

/-- **C5** counterexample: the SPI adapter forwards an empty `U8` slice
straight to `spi.write` (`src/spi/src/lib.rs` line 20), so `send_data`
with an empty slice performs one underlying bus write call, not zero. -/
theorem spi_send_data_empty_slice_is_one_write :
    countBusWrites (spiNoCsSendData spiEnvOk true (.U8 [])).2 = 1 ∧
    countBusWrites (spiNoCsSendData spiEnvOk true (.U8 [])).2 ≠ 0 := by
  exact ⟨rfl, by decide⟩

/-- **C5** (amended): `send_data` with an empty `U8` slice returns success
everywhere and performs zero bus writes on the I2C adapter (guard before
any bus operation) and on the parallel-GPIO adapter (empty byte loop; only
the D/C pin is driven); the SPI adapter also returns success but issues
exactly one `spi.write` call, carrying the empty byte slice. -/
theorem send_data_empty_u8_policy :
    (∀ (env : I2cEnv) (st : I2cInterface),
      I2cInterface.send_data env st (.U8 []) = some (.ok (), [])) ∧
    (∀ (env : ParEnv) (le : Bool) (bus : Bus8), env.dcOk = true →
      PGPIO8BitInterface.send_data env le bus (.U8 []) = (.ok (), bus, [.dcHigh])) ∧
    (∀ (env : SpiEnv) (le : Bool), env.dcOk = true → env.busOk 0 = true →
      spiNoCsSendData env le (.U8 []) = (.ok (), [.dcHigh, .busWrite []])) := by
  refine ⟨fun env st => rfl, fun env le bus h => ?_, fun env le h1 h2 => ?_⟩
  · simp [PGPIO8BitInterface.send_data, h, pgpio_send_bytes]
  · simp [spiNoCsSendData, h1, spiPlan, runWrites, h2]

/-- Witness for the amended C5 at the all-success environments. -/
theorem send_data_empty_u8_policy_witness :
    (parEnvOk.dcOk = true) ∧ (spiEnvOk.dcOk = true) ∧ (spiEnvOk.busOk 0 = true) ∧
    PGPIO8BitInterface.send_data parEnvOk true ⟨0⟩ (.U8 []) = (.ok (), ⟨0⟩, [.dcHigh]) ∧
    spiNoCsSendData spiEnvOk true (.U8 []) = (.ok (), [.dcHigh, .busWrite []]) :=
  ⟨rfl, rfl, rfl, send_data_empty_u8_policy.2.1 parEnvOk true ⟨0⟩ rfl,
    send_data_empty_u8_policy.2.2 spiEnvOk true rfl rfl⟩

theorem set_value_pins_ok_events (pinOk : Nat → Bool) (value changed : Nat) :
    ∀ xs : List Nat, (set_value_pins pinOk value changed xs).1 = .ok () →
      (set_value_pins pinOk value changed xs).2 =
        xs.filterMap (fun x =>
          if changed.testBit x then some (.pin x (value.testBit x)) else none) := by
  intro xs
  induction xs with
  | nil => intro h; rfl
  | cons x t ih =>
    intro h
    by_cases hc : changed.testBit x
    · by_cases hp : pinOk x = true
      · simp only [set_value_pins, hc, hp, if_pos] at h ⊢
        simp [List.filterMap_cons, hc, ih h]
      · simp only [set_value_pins, hc, if_pos, hp] at h
        simp at h
    · simp only [set_value_pins, hc] at h ⊢
      simp [List.filterMap_cons, hc, ih h]

theorem Bus8.set_value_unchanged (pinOk : Nat → Bool) (bus : Bus8) (v : Nat)
    (hc : v ^^^ bus.last = 0) :
    Bus8.set_value pinOk bus v = (.ok (), bus, []) := by
  unfold Bus8.set_value
  rw [if_pos hc]

theorem Bus8.set_value_events (pinOk : Nat → Bool) (bus : Bus8) (v : Nat)
    (hc : v ^^^ bus.last ≠ 0) (h : (Bus8.set_value pinOk bus v).1 = .ok ()) :
    (Bus8.set_value pinOk bus v).2.2 =
      (List.range 8).filterMap (fun x =>
        if (v ^^^ bus.last).testBit x then some (.pin x (v.testBit x)) else none) := by
  rcases hset : set_value_pins pinOk v (v ^^^ bus.last) (List.range 8) with ⟨r, evs⟩
  cases r with
  | ok u =>
    cases u
    have hevs := set_value_pins_ok_events pinOk v (v ^^^ bus.last) (List.range 8)
      (by rw [hset])
    rw [hset] at hevs
    unfold Bus8.set_value
    rw [if_neg hc, hset]
    exact hevs
  | error e =>
    unfold Bus8.set_value at h
    rw [if_neg hc, hset] at h
    simp at h

theorem Bus8.set_value_last (pinOk : Nat → Bool) (bus : Bus8) (v : Nat)
    (h : (Bus8.set_value pinOk bus v).1 = .ok ()) :
    (Bus8.set_value pinOk bus v).2.1.last = v := by
  by_cases hc : v ^^^ bus.last = 0
  · rw [Bus8.set_value_unchanged pinOk bus v hc]
    exact (Nat.xor_eq_zero.mp hc).symm
  · rcases hset : set_value_pins pinOk v (v ^^^ bus.last) (List.range 8) with ⟨r, evs⟩
    cases r with
    | ok u =>
      cases u
      unfold Bus8.set_value
      rw [if_neg hc, hset]
    | error e =>
      unfold Bus8.set_value at h
      rw [if_neg hc, hset] at h
      simp at h

theorem Bus8.set_value_repeat_no_writes (pinOk pinOk2 : Nat → Bool) (bus : Bus8) (X : Nat)
    (h : (Bus8.set_value pinOk bus X).1 = .ok ()) :
    (Bus8.set_value pinOk2 (Bus8.set_value pinOk bus X).2.1 X).2.2 = [] := by
  have hc : X ^^^ (Bus8.set_value pinOk bus X).2.1.last = 0 := by
    rw [Bus8.set_value_last pinOk bus X h, Nat.xor_self]
  rw [Bus8.set_value_unchanged pinOk2 (Bus8.set_value pinOk bus X).2.1 X hc]

theorem Bus8.set_value_diff_writes (pinOk pinOk2 : Nat → Bool) (bus : Bus8) (X Y : Nat)
    (hXY : X ≠ Y) (h1 : (Bus8.set_value pinOk bus X).1 = .ok ())
    (h2 : (Bus8.set_value pinOk2 (Bus8.set_value pinOk bus X).2.1 Y).1 = .ok ()) :
    (Bus8.set_value pinOk2 (Bus8.set_value pinOk bus X).2.1 Y).2.2 =
      (List.range 8).filterMap (fun x =>
        if (X ^^^ Y).testBit x then some (.pin x (Y.testBit x)) else none) := by
  have hl := Bus8.set_value_last pinOk bus X h1
  have hc : Y ^^^ (Bus8.set_value pinOk bus X).2.1.last ≠ 0 := by
    rw [hl]
    intro h0
    exact hXY (Nat.xor_eq_zero.mp h0).symm
  have he := Bus8.set_value_events pinOk2 (Bus8.set_value pinOk bus X).2.1 Y hc h2
  rw [he, hl, Nat.xor_comm Y X]

/-- **C2**: for `Generic8BitBus::set_value` (modelled as
`Bus8.set_value`): (1) every successful call leaves the cached `last`
value equal to the argument; (2) a second `set_value X` immediately after
a successful `set_value X` performs zero individual pin writes; (3) a
`set_value Y` after a successful `set_value X` with `X ≠ Y` that itself
succeeds writes exactly the pins whose bit is set in `X ^^^ Y`, driven
high where `Y` has a 1 bit and low where `Y` has a 0 bit (in pin order
0-7). -/
theorem generic8BitBus_set_value_differential :
    (∀ (pinOk : Nat → Bool) (bus : Bus8) (v : Nat),
      (Bus8.set_value pinOk bus v).1 = .ok () →
      (Bus8.set_value pinOk bus v).2.1.last = v) ∧
    (∀ (pinOk pinOk2 : Nat → Bool) (bus : Bus8) (X : Nat),
      (Bus8.set_value pinOk bus X).1 = .ok () →
      (Bus8.set_value pinOk2 (Bus8.set_value pinOk bus X).2.1 X).2.2 = []) ∧
    (∀ (pinOk pinOk2 : Nat → Bool) (bus : Bus8) (X Y : Nat),
      X < 256 → Y < 256 → X ≠ Y →
      (Bus8.set_value pinOk bus X).1 = .ok () →
      (Bus8.set_value pinOk2 (Bus8.set_value pinOk bus X).2.1 Y).1 = .ok () →
      (Bus8.set_value pinOk2 (Bus8.set_value pinOk bus X).2.1 Y).2.2 =
        (List.range 8).filterMap (fun x =>
          if (X ^^^ Y).testBit x then some (.pin x (Y.testBit x)) else none)) :=
  ⟨Bus8.set_value_last,
    Bus8.set_value_repeat_no_writes,
    fun pinOk pinOk2 bus X Y _ _ hXY h1 h2 =>
      Bus8.set_value_diff_writes pinOk pinOk2 bus X Y hXY h1 h2⟩

/-- Witness for C2 at `X = 5`, `Y = 9` from a bus whose cache holds 0:
`5 ^^^ 9 = 12`, so exactly pins 2 and 3 are driven, pin 2 low and pin 3
high (the bits of 9). -/
theorem generic8BitBus_set_value_differential_witness :
    ((Bus8.set_value (fun _ => true) ⟨0⟩ 5).1 = .ok ()) ∧
    ((Bus8.set_value (fun _ => true)
        (Bus8.set_value (fun _ => true) ⟨0⟩ 5).2.1 9).1 = .ok ()) ∧
    (Bus8.set_value (fun _ => true) ⟨0⟩ 5).2.1.last = 5 ∧
    (Bus8.set_value (fun _ => true)
        (Bus8.set_value (fun _ => true) ⟨0⟩ 5).2.1 9).2.2 =
      (List.range 8).filterMap (fun x =>
        if ((5 : Nat) ^^^ 9).testBit x then some (.pin x ((9 : Nat).testBit x)) else none) :=
  ⟨rfl, rfl,
    generic8BitBus_set_value_differential.1 (fun _ => true) ⟨0⟩ 5 rfl,
    generic8BitBus_set_value_differential.2.2 (fun _ => true) (fun _ => true) ⟨0⟩ 5 9
      (by decide) (by decide) (by decide) rfl rfl⟩

/-- **C3** counterexample: after actual construction
(`Generic8BitBus::new` drives every line low and leaves the cache at 0),
`send_data([0x00, 0x00, 0xFF])` performs 8 individual line writes, not 16
— the first `0x00` finds the bus already at 0 and drives no lines. -/
theorem pgpio_scenario_line_writes_are_8_not_16 :
    countPin (PGPIO8BitInterface.send_data parEnvOk true
      (Bus8.new (fun _ => true)).2.1 (.U8 [0, 0, 255])).2.2 = 8 ∧
    countPin (PGPIO8BitInterface.send_data parEnvOk true
      (Bus8.new (fun _ => true)).2.1 (.U8 [0, 0, 255])).2.2 ≠ 16 := by
  exact ⟨rfl, by decide⟩

/-- **C3** (amended): construction itself (`Generic8BitBus::new`, cache
seeded with `u8::MAX` then `set_value(0)`) drives all 8 lines low and
leaves the cache at 0; the subsequent `send_data([0x00, 0x00, 0xFF])` then
produces exactly 3 WR strobes (one per byte) but only 8 line writes: the
first `0x00` drives no lines (the bus is already at 0), the second `0x00`
drives no lines, and `0xFF` drives all 8 lines high. -/
theorem pgpio_new_drives_all_low_then_send_scenario :
    Bus8.new (fun _ => true) =
      (.ok (), ⟨0⟩, (List.range 8).map (fun x => .pin x false)) ∧
    PGPIO8BitInterface.send_data parEnvOk true (Bus8.new (fun _ => true)).2.1
        (.U8 [0, 0, 255]) =
      (.ok (), ⟨255⟩,
        [.dcHigh, .wrLow, .wrHigh, .wrLow, .wrHigh, .wrLow] ++
          (List.range 8).map (fun x => .pin x true) ++ [.wrHigh]) ∧
    countWrHigh (PGPIO8BitInterface.send_data parEnvOk true
      (Bus8.new (fun _ => true)).2.1 (.U8 [0, 0, 255])).2.2 = 3 ∧
    countPin (PGPIO8BitInterface.send_data parEnvOk true
      (Bus8.new (fun _ => true)).2.1 (.U8 [0, 0, 255])).2.2 = 8 := by
  exact ⟨rfl, rfl, rfl, rfl⟩

theorem take_length_append (l1 l2 : List Nat) : (l1 ++ l2).take l1.length = l1 := by
  induction l1 with
  | nil => rfl
  | cons a t ih => simp [ih]

theorem setSlice_cons (db : Nat) (t c : List Nat) :
    setSlice (db :: t) 1 c = db :: (c ++ t.drop c.length) := by
  simp [setSlice, List.drop_succ_cons, Nat.add_comm]

theorem i2cDataGo_all_ok (env : I2cEnv) (hok : ∀ k, env.ok k = true) (addr db : Nat) :
    ∀ (chunks : List (List Nat)) (n : Nat) (t : List Nat), t.length = 16 →
      (∀ c ∈ chunks, c.length ≤ 16) →
      i2cDataGo env addr n (db :: t) chunks =
        (.ok (), chunks.map (fun c => (addr, db :: c))) := by
  intro chunks
  induction chunks with
  | nil => intro n t _ _; rfl
  | cons c rest ih =>
    intro n t ht hcs
    have hc : c.length ≤ 16 := hcs c (by simp)
    have hrest : ∀ x ∈ rest, x.length ≤ 16 := fun x hx => hcs x (by simp [hx])
    have ht2 : (c ++ t.drop c.length).length = 16 := by
      simp only [List.length_append, List.length_drop]
      omega
    simp only [i2cDataGo, hok n, if_pos]
    rw [setSlice_cons]
    rw [ih (n + 1) (c ++ t.drop c.length) ht2 hrest]
    simp [List.take_succ_cons, take_length_append]

/-- **C4**: for a non-empty `U8` slice on an error-free bus, the I2C
adapter issues exactly `ceil(L / 16)` writes, the `k`-th consisting of the
configured data-mode byte followed by the `k`-th 16-byte chunk of the
slice, in order (the chunks concatenate back to the slice). -/
theorem i2c_send_data_u8_chunked (env : I2cEnv) (addr db : Nat) (slice : List Nat)
    (hne : slice ≠ []) (hok : ∀ k, env.ok k = true) :
    I2cInterface.send_data env ⟨addr, db⟩ (.U8 slice) =
      some (.ok (), (chunks16 slice).map (fun c => (addr, db :: c))) ∧
    (chunks16 slice).length = (slice.length + 15) / 16 ∧
    (chunks16 slice).flatten = slice := by
  refine ⟨?_, chunks16_length slice.length slice le_rfl,
    chunks16_flatten slice.length slice le_rfl⟩
  simp only [I2cInterface.send_data]
  rw [if_neg (by simp [hne])]
  have hwb : (List.replicate 17 0).set 0 db = db :: List.replicate 16 0 := rfl
  rw [hwb, i2cDataGo_all_ok env hok addr db (chunks16 slice) 0 (List.replicate 16 0)
    (by simp) (fun c hc => chunks16_short c slice.length slice le_rfl hc)]

/-- Witness for C4: the spec scenario `data_mode_byte = 0x40`,
`send_data([0x11, 0x22])` issues exactly one write `[0x40, 0x11, 0x22]`
(address 0x3C here). -/
theorem i2c_send_data_u8_chunked_witness :
    (([17, 34] : List Nat) ≠ []) ∧
    I2cInterface.send_data i2cEnvOk ⟨60, 64⟩ (.U8 [17, 34]) =
      some (.ok (), [(60, [64, 17, 34])]) := by
  refine ⟨by decide, ?_⟩
  have h := (i2c_send_data_u8_chunked i2cEnvOk 60 64 [17, 34] (by decide)
    (fun k => rfl)).1
  rw [h]
  simp [chunks16]

/-- **C6**: `I2cInterface::send_commands` with a `U8` slice of length at
most 7 issues exactly one I2C write of the constant command-mode byte 0
followed by the slice, and every other `DataFormat` variant is rejected
with `DataFormatNotImplemented` before any bus operation. -/
theorem i2c_send_commands_u8_and_reject (env : I2cEnv) (st : I2cInterface)
    (slice : List Nat) (hlen : slice.length ≤ 7) (hok : env.ok 0 = true) :
    I2cInterface.send_commands env st (.U8 slice) =
      some (.ok (), [(st.addr, 0 :: slice)]) ∧
    (∀ fmt : DataFormat, fmt.isU8 = false →
      I2cInterface.send_commands env st fmt =
        some (.error .DataFormatNotImplemented, [])) := by
  constructor
  · simp only [I2cInterface.send_commands]
    rw [if_pos (by omega), if_pos hok]
    have h1 : setSlice (List.replicate 8 0) 1 slice =
        0 :: (slice ++ (List.replicate 7 0).drop slice.length) := by
      have h0 : (List.replicate 8 0 : List Nat) = 0 :: List.replicate 7 0 := rfl
      rw [h0, setSlice_cons]
    rw [h1]
    simp [take_length_append]
  · intro fmt hfmt
    cases fmt with
    | U8 sl => simp [DataFormat.isU8] at hfmt
    | U16 sl => rfl
    | U16BE sl => rfl
    | U16LE sl => rfl
    | U8Iter it => rfl
    | U16BEIter it => rfl
    | U16LEIter it => rfl

/-- Witness for C6: two command bytes `[0xAE, 0x64]` produce the single
write `[0x00, 0xAE, 0x64]`, and an iterator format is rejected. -/
theorem i2c_send_commands_u8_and_reject_witness :
    (([174, 100] : List Nat).length ≤ 7) ∧ (i2cEnvOk.ok 0 = true) ∧
    I2cInterface.send_commands i2cEnvOk ⟨60, 64⟩ (.U8 [174, 100]) =
      some (.ok (), [(60, [0, 174, 100])]) ∧
    I2cInterface.send_commands i2cEnvOk ⟨60, 64⟩ (.U8Iter [1, 2]) =
      some (.error .DataFormatNotImplemented, []) :=
  ⟨by decide, rfl,
    (i2c_send_commands_u8_and_reject i2cEnvOk ⟨60, 64⟩ [174, 100] (by decide) rfl).1,
    (i2c_send_commands_u8_and_reject i2cEnvOk ⟨60, 64⟩ [174, 100] (by decide) rfl).2
      (.U8Iter [1, 2]) rfl⟩

/-- **C7**: for every `send_commands` call on the SPI adapter with
chip-select that returns `Ok`, the trace of physical operations is
exactly: CS asserted low, then the D/C pin driven low, then the bus
writes of the payload in order, then CS deasserted high — so CS-low
strictly precedes DC-low, DC-low strictly precedes the first bus write,
and CS-high strictly follows the last bus write. -/
theorem spi_cs_send_commands_framing_order (env : SpiEnv) (le : Bool) (fmt : DataFormat)
    (h : (spiCsSendCommands env le fmt).1 = .ok ()) :
    (spiCsSendCommands env le fmt).2 =
      .csLow :: .dcLow :: (spiPlan le fmt).map .busWrite ++ [.csHigh] := by
  by_cases hcs : env.csLowOk = true
  · by_cases hdc : env.dcOk = true
    · simp only [spiCsSendCommands, withCs, hcs, if_pos, spiNoCsSendCommands, hdc] at h ⊢
      rw [runWrites_ok_events env.busOk (spiPlan le fmt) 0 h]
    · simp [spiCsSendCommands, withCs, hcs, spiNoCsSendCommands, hdc] at h
  · simp [spiCsSendCommands, withCs, hcs] at h

/-- Witness for C7 at the all-success environment with payload
`U8 [0x07]`. -/
theorem spi_cs_send_commands_framing_order_witness :
    ((spiCsSendCommands spiEnvOk true (.U8 [7])).1 = .ok ()) ∧
    (spiCsSendCommands spiEnvOk true (.U8 [7])).2 =
      .csLow :: .dcLow :: (spiPlan true (.U8 [7])).map .busWrite ++ [.csHigh] :=
  ⟨rfl, spi_cs_send_commands_framing_order spiEnvOk true (.U8 [7]) rfl⟩

/-- Environment in which the CS deassert (`set_high`) fails and everything
else succeeds. -/
def spiEnvCsHighFail : SpiEnv := ⟨true, false, true, fun _ => true⟩

/-- **C8** counterexample: in the async `spi_async` adapter
(`SPIInterface::send_commands`, `src/spi_async/src/lib.rs` lines 176-181)
a CS-deassert failure after a successful payload IS surfaced: the payload
(`U8 [0x11]`) succeeds, yet the call returns `CSError` instead of `Ok`. -/
theorem spi_async_cs_deassert_failure_surfaced :
    (spiNoCsSendCommands spiEnvCsHighFail true (.U8 [17])).1 = .ok () ∧
    (spiAsyncCsSendCommands spiEnvCsHighFail true (.U8 [17])).1 = .error .CSError := by
  exact ⟨rfl, rfl⟩

/-- **C8** (amended): the sync SPI adapter (`with_cs`) never surfaces a
CS-deassert failure — whenever the CS assert succeeds the call returns
exactly the payload's result (`Ok` on success, the payload's error on
failure), for any deassert behaviour.  The async `spi_async` adapter,
however, returns `CSError` when the payload succeeded but the deassert
failed; when the payload failed it returns the payload's error and never
attempts the deassert. -/
theorem spi_cs_deassert_error_policy :
    (∀ (env : SpiEnv) (le : Bool) (fmt : DataFormat), env.csLowOk = true →
      (spiCsSendCommands env le fmt).1 = (spiNoCsSendCommands env le fmt).1) ∧
    (∀ (env : SpiEnv) (le : Bool) (fmt : DataFormat), env.csLowOk = true →
      env.csHighOk = false →
      (spiNoCsSendCommands env le fmt).1 = .ok () →
      (spiAsyncCsSendCommands env le fmt).1 = .error .CSError) ∧
    (∀ (env : SpiEnv) (le : Bool) (fmt : DataFormat) (e : DisplayError),
      env.csLowOk = true →
      (spiNoCsSendCommands env le fmt).1 = .error e →
      (spiAsyncCsSendCommands env le fmt).1 = .error e) := by
  refine ⟨fun env le fmt hcs => ?_, fun env le fmt hcs hhigh hok => ?_,
    fun env le fmt e hcs herr => ?_⟩
  · simp [spiCsSendCommands, withCs, hcs]
  · rcases hm : spiNoCsSendCommands env le fmt with ⟨r, evs⟩
    rw [hm] at hok
    simp only at hok
    subst hok
    simp [spiAsyncCsSendCommands, hcs, hm, hhigh]
  · rcases hm : spiNoCsSendCommands env le fmt with ⟨r, evs⟩
    rw [hm] at herr
    simp only at herr
    subst herr
    simp [spiAsyncCsSendCommands, hcs, hm]

/-- Witness for the amended C8 in the deassert-failing environment with
payload `U8 [0x03]`. -/
theorem spi_cs_deassert_error_policy_witness :
    (spiEnvCsHighFail.csLowOk = true) ∧ (spiEnvCsHighFail.csHighOk = false) ∧
    ((spiNoCsSendCommands spiEnvCsHighFail true (.U8 [3])).1 = .ok ()) ∧
    (spiCsSendCommands spiEnvCsHighFail true (.U8 [3])).1 =
      (spiNoCsSendCommands spiEnvCsHighFail true (.U8 [3])).1 ∧
    (spiAsyncCsSendCommands spiEnvCsHighFail true (.U8 [3])).1 = .error .CSError :=
  ⟨rfl, rfl, rfl,
    spi_cs_deassert_error_policy.1 spiEnvCsHighFail true (.U8 [3]) rfl,
    spi_cs_deassert_error_policy.2.1 spiEnvCsHighFail true (.U8 [3]) rfl rfl rfl⟩

end DisplayInterface